import Mathlib

/-!
Shallow embedding of the txflow transaction engine (src/main.rs).

The engine replays a stream of typed transaction events (deposit, withdrawal,
dispute, resolve, chargeback) against per-client accounts and emits the final
balances.  Amounts (rust_decimal::Decimal in the source) are modelled as
rationals; the per-account history HashMap<TxId, (Decimal, bool)> is modelled
as a function from transaction id to an optional (amount, disputed) pair; the
client -> Account HashMap is modelled as a function from client id to an
optional Account together with the list of keys in first-touch order.
-/

namespace Txflow

/-- Event kinds, mirroring enum TxType in src/main.rs. -/
inductive TxType where
  | deposit
  | withdrawal
  | dispute
  | resolve
  | chargeback
deriving DecidableEq, Repr

/-- A parsed transaction row, mirroring struct Transaction: a kind, a client
id, a transaction id and an optional amount. -/
structure Transaction where
  tx_type : TxType
  client : Nat
  tx : Nat
  amount : Option ℚ
deriving DecidableEq, Repr

/-- Per-account transaction history, modelling HashMap<TxId, (Decimal, bool)>
where the pair is (amount, disputed). -/
def History : Type := Nat → Option (ℚ × Bool)

/-- HashMap::insert on a history: overwrites any existing record at the key. -/
def History.insert (h : History) (t : Nat) (v : ℚ × Bool) : History :=
  fun t' => if t' = t then some v else h t'

/-- Per-client account state, mirroring struct Account in src/main.rs.  The
serde(skip) attribute on history only affects serialization, handled by
serializeAccount below. -/
structure Account where
  client : Nat
  available : ℚ
  held : ℚ
  locked : Bool
  history : History

/-- The account created by Account::default() with the client id overridden,
as built at the or_insert call site in process_transactions. -/
def defaultAccount (c : Nat) : Account :=
  { client := c, available := 0, held := 0, locked := false, history := fun _ => none }

/-- Account::deposit (src/main.rs lines 41-45): no-op when locked, otherwise
add the amount to available and insert (amount, disputed=false) at tx,
overwriting any existing record. -/
def Account.deposit (a : Account) (t : Nat) (amount : ℚ) : Account :=
  if a.locked then a
  else { a with available := a.available + amount,
                history := a.history.insert t (amount, false) }

/-- Account::withdrawal (lines 47-50): no-op when locked or available < amount,
otherwise subtract the amount from available. -/
def Account.withdrawal (a : Account) (amount : ℚ) : Account :=
  if a.locked ∨ a.available < amount then a
  else { a with available := a.available - amount }

/-- Account::dispute (lines 52-61): no-op when locked; otherwise look up tx in
the history; when found with disputed=false and available >= amount, move the
amount from available to held and mark the record disputed. -/
def Account.dispute (a : Account) (t : Nat) : Account :=
  if a.locked then a
  else
    match a.history t with
    | some (amount, disputed) =>
      if disputed = false ∧ amount ≤ a.available then
        { a with available := a.available - amount,
                 held := a.held + amount,
                 history := a.history.insert t (amount, true) }
      else a
    | none => a

/-- Account::resolve (lines 63-72): no-op when locked; otherwise look up tx;
when found with disputed=true, move the amount from held back to available and
clear the disputed flag. -/
def Account.resolve (a : Account) (t : Nat) : Account :=
  if a.locked then a
  else
    match a.history t with
    | some (amount, disputed) =>
      if disputed = true then
        { a with available := a.available + amount,
                 held := a.held - amount,
                 history := a.history.insert t (amount, false) }
      else a
    | none => a

/-- Account::chargeback (lines 74-83): no-op when locked; otherwise look up tx;
when found with disputed=true, subtract the amount from held, lock the account
and clear the disputed flag. -/
def Account.chargeback (a : Account) (t : Nat) : Account :=
  if a.locked then a
  else
    match a.history t with
    | some (amount, disputed) =>
      if disputed = true then
        { a with held := a.held - amount,
                 locked := true,
                 history := a.history.insert t (amount, false) }
      else a
    | none => a

/-- The per-record dispatch in process_transactions (lines 97-111): deposits
and withdrawals require a present amount (a missing amount drops the event),
the dispute family always dispatches on the transaction id. -/
def applyToAccount (a : Account) (r : Transaction) : Account :=
  match r.tx_type with
  | TxType.deposit =>
    match r.amount with
    | some amount => a.deposit r.tx amount
    | none => a
  | TxType.withdrawal =>
    match r.amount with
    | some amount => a.withdrawal amount
    | none => a
  | TxType.dispute => a.dispute r.tx
  | TxType.resolve => a.resolve r.tx
  | TxType.chargeback => a.chargeback r.tx

/-- The engine state: the HashMap<ClientId, Account>, modelled as a lookup
function plus the key list in first-touch order (one unspecified iteration
order for the final report). -/
structure Ledger where
  keys : List Nat
  accounts : Nat → Option Account

/-- The empty account map at the start of process_transactions. -/
def Ledger.empty : Ledger :=
  { keys := [], accounts := fun _ => none }

/-- accounts.entry(client).or_insert(default with this client): the addressed
account, created fresh if absent. -/
def Ledger.lookup (m : Ledger) (c : Nat) : Account :=
  match m.accounts c with
  | some a => a
  | none => defaultAccount c

/-- One iteration of the processing loop (lines 93-111): fetch or create the
addressed account, apply the record to it, store it back. -/
def applyTransaction (m : Ledger) (r : Transaction) : Ledger :=
  { keys := if (m.accounts r.client).isSome then m.keys else m.keys ++ [r.client],
    accounts := fun c =>
      if c = r.client then some (applyToAccount (m.lookup r.client) r) else m.accounts c }

/-- The deserialization loop (lines 91-112): each row comes from the csv
reader as a parse result; the first parse error aborts the whole run via the
question-mark operator. -/
def runRows : List (Except String Transaction) → Ledger → Except String Ledger
  | [], m => Except.ok m
  | r :: rs, m =>
    match r with
    | Except.error e => Except.error e
    | Except.ok t => runRows rs (applyTransaction m t)

/-- One serialized output row.  The Serialize derive on struct Account emits
exactly the non-skipped fields: client, available, held, locked (history
carries serde(skip)); there is no total field. -/
structure OutputRow where
  client : Nat
  available : ℚ
  held : ℚ
  locked : Bool
deriving DecidableEq, Repr

/-- Serialization of one account (writer.serialize(account), line 116). -/
def serializeAccount (a : Account) : OutputRow :=
  { client := a.client, available := a.available, held := a.held, locked := a.locked }

/-- The header the csv writer derives from the serialized struct fields in
declaration order, history being skipped. -/
def accountColumns : List String :=
  ["client", "available", "held", "locked"]

/-- The output pass (lines 114-119): one row per account in the map. -/
def emitAll (m : Ledger) : List OutputRow :=
  m.keys.map (fun c => serializeAccount (m.lookup c))

/-- process_transactions (lines 86-121): File::open may fail (modelled by a
none input); otherwise fold the rows, aborting on the first parse error, and
only then serialize all accounts. -/
def processTransactions (input : Option (List (Except String Transaction))) :
    Except String (List OutputRow) :=
  match input with
  | none => Except.error "cannot open input file"
  | some rows =>
    match runRows rows Ledger.empty with
    | Except.error e => Except.error e
    | Except.ok m => Except.ok (emitAll m)

/-- The usage message printed when no path argument is given (line 129). -/
def usageMessage : String :=
  "Usage: cargo run -- transactions.csv > accounts.csv"

/-- fn main (lines 123-131): takes argv and the outcome of opening/reading the
input file, returns (exit status, stderr lines, stdout rows).  Rust main
returns unit in every branch, so the process exit status is 0 in every branch;
errors only produce a single diagnostic line on stderr. -/
def mainRun (argv : List String) (input : Option (List (Except String Transaction))) :
    Nat × List String × Option (List OutputRow) :=
  match argv.get? 1 with
  | some _ =>
    match processTransactions input with
    | Except.ok out => (0, [], some out)
    | Except.error e => (0, ["Error processing transactions: " ++ e], none)
  | none => (0, [usageMessage], none)

/-! Helper lemmas shared by the claim theorems. -/

/-- Reading a history at the key just inserted yields the inserted record. -/
theorem History.insert_self (h : History) (t : Nat) (v : ℚ × Bool) :
    h.insert t v t = some v := by
  simp [History.insert]

/-- Reading a history at a different key is unaffected by an insert. -/
theorem History.insert_ne (h : History) (t t' : Nat) (v : ℚ × Bool) (hne : t' ≠ t) :
    h.insert t v t' = h t' := by
  simp [History.insert, hne]

/-- A dispute whose transaction id is absent from the account's history is a
no-op, locked or not. -/
theorem dispute_of_not_in_history (a : Account) (t : Nat) (h : a.history t = none) :
    a.dispute t = a := by
  by_cases hl : a.locked = true <;> simp [Account.dispute, hl, h]

/-! Claim theorems. -/

/-- C2 counterexample: a deposit carrying amount -5 — not a non-negative
decimal — is applied rather than treated as a no-op: available moves from 0
to -5. -/
theorem c2_counterexample :
    ((defaultAccount 1).deposit 1 (-5)).available = -5 ∧
    (defaultAccount 1).available = 0 := by
  constructor
  · simp [Account.deposit, defaultAccount]
  · rfl

/-- C2 (amended): a deposit or withdrawal event whose amount is absent is a
no-op: the addressed account is unchanged.  (The engine performs no sign
check, so a negative parsed amount is applied; an amount that fails to parse
is a fatal deserialization error for the whole run, not a per-event no-op.) -/
theorem c2_absent_amount_noop (a : Account) (r : Transaction)
    (hk : r.tx_type = TxType.deposit ∨ r.tx_type = TxType.withdrawal)
    (ha : r.amount = none) :
    applyToAccount a r = a := by
  rcases hk with hk | hk <;> simp [applyToAccount, hk, ha]

/-- C2 witness: a deposit event with no amount leaves a fresh account as is. -/
theorem c2_absent_amount_noop_witness :
    applyToAccount (defaultAccount 2) ⟨TxType.deposit, 2, 7, none⟩ = defaultAccount 2 :=
  c2_absent_amount_noop (defaultAccount 2) ⟨TxType.deposit, 2, 7, none⟩ (Or.inl rfl) rfl

/-- C4: on an unlocked account holding an undisputed history record at t whose
amount strictly exceeds the available balance, dispute t is a no-op. -/
theorem c4_dispute_insufficient_noop (a : Account) (t : Nat) (amt : ℚ)
    (hl : a.locked = false)
    (hh : a.history t = some (amt, false))
    (hlt : a.available < amt) :
    a.dispute t = a := by
  simp [Account.dispute, hl, hh, not_le.mpr hlt]

/-- C4 witness: Scenario C — deposit(tx=1, 10); withdrawal(10); dispute(tx=1)
is rejected, leaving available = 0 and held = 0. -/
theorem c4_dispute_insufficient_noop_witness :
    (((defaultAccount 1).deposit 1 10).withdrawal 10).dispute 1 =
      ((defaultAccount 1).deposit 1 10).withdrawal 10 ∧
    ((((defaultAccount 1).deposit 1 10).withdrawal 10).dispute 1).available = 0 ∧
    ((((defaultAccount 1).deposit 1 10).withdrawal 10).dispute 1).held = 0 := by
  have hnoop :=
    c4_dispute_insufficient_noop (((defaultAccount 1).deposit 1 10).withdrawal 10) 1 10
      (by simp [Account.deposit, Account.withdrawal, defaultAccount])
      (by simp [Account.deposit, Account.withdrawal, defaultAccount, History.insert])
      (by simp [Account.deposit, Account.withdrawal, defaultAccount])
  refine ⟨hnoop, ?_, ?_⟩ <;> rw [hnoop] <;>
    simp [Account.deposit, Account.withdrawal, defaultAccount]

/-- C5: once an account is locked, deposit, withdrawal, dispute, resolve and
chargeback are all no-ops and the locked flag stays true: locking is an
absorbing terminal state. -/
theorem c5_locked_absorbing (a : Account) (t : Nat) (amt : ℚ)
    (hl : a.locked = true) :
    a.deposit t amt = a ∧ a.withdrawal amt = a ∧ a.dispute t = a ∧
    a.resolve t = a ∧ a.chargeback t = a ∧
    (a.deposit t amt).locked = true ∧ (a.withdrawal amt).locked = true ∧
    (a.dispute t).locked = true ∧ (a.resolve t).locked = true ∧
    (a.chargeback t).locked = true := by
  have h1 : a.deposit t amt = a := by simp [Account.deposit, hl]
  have h2 : a.withdrawal amt = a := by simp [Account.withdrawal, hl]
  have h3 : a.dispute t = a := by simp [Account.dispute, hl]
  have h4 : a.resolve t = a := by simp [Account.resolve, hl]
  have h5 : a.chargeback t = a := by simp [Account.chargeback, hl]
  exact ⟨h1, h2, h3, h4, h5, by rw [h1]; exact hl, by rw [h2]; exact hl,
    by rw [h3]; exact hl, by rw [h4]; exact hl, by rw [h5]; exact hl⟩

/-- C5 witness: a concrete locked account absorbs a dispute unchanged. -/
theorem c5_locked_absorbing_witness :
    Account.dispute ⟨9, 3, 2, true, fun _ => none⟩ 7 = ⟨9, 3, 2, true, fun _ => none⟩ :=
  (c5_locked_absorbing ⟨9, 3, 2, true, fun _ => none⟩ 7 5 rfl).2.2.1

/-- C7: on an account with held = 0 and an undisputed deposit record of amt at
t, dispute t followed by resolve t restores exactly the original available
balance and held = 0. -/
theorem c7_dispute_resolve_roundtrip (a : Account) (t : Nat) (amt : ℚ)
    (hheld : a.held = 0)
    (hh : a.history t = some (amt, false)) :
    ((a.dispute t).resolve t).available = a.available ∧
    ((a.dispute t).resolve t).held = 0 := by
  by_cases hl : a.locked = true
  · simp [Account.dispute, Account.resolve, hl, hheld]
  · by_cases hge : amt ≤ a.available
    · have hd : a.dispute t =
          { a with available := a.available - amt, held := a.held + amt,
                   history := a.history.insert t (amt, true) } := by
        simp [Account.dispute, hl, hh, hge]
      rw [hd]
      simp [Account.resolve, hl, History.insert, hheld]
    · have hd : a.dispute t = a := by simp [Account.dispute, hl, hh, hge]
      rw [hd]
      simp [Account.resolve, hl, hh, hheld]

/-- C7 witness: deposit 10 at tx 1, then dispute and resolve tx 1; available
returns to the post-deposit balance and held returns to 0. -/
theorem c7_dispute_resolve_roundtrip_witness :
    ((((defaultAccount 1).deposit 1 10).dispute 1).resolve 1).available =
      ((defaultAccount 1).deposit 1 10).available ∧
    ((((defaultAccount 1).deposit 1 10).dispute 1).resolve 1).held = 0 :=
  c7_dispute_resolve_roundtrip ((defaultAccount 1).deposit 1 10) 1 10
    (by simp [Account.deposit, defaultAccount])
    (by simp [Account.deposit, defaultAccount, History.insert])

/-- C8: a withdrawal is a no-op when available < amount; when it does apply it
leaves available = available - amount, which is never negative — so for any
sequence of deposits and withdrawals (i.e. from any account state) no
withdrawal ever drives available below zero. -/
theorem c8_withdrawal_never_negative (a : Account) (amt : ℚ) :
    (a.available < amt → a.withdrawal amt = a) ∧
    (a.withdrawal amt = a ∨
      ((a.withdrawal amt).available = a.available - amt ∧
        0 ≤ (a.withdrawal amt).available)) := by
  by_cases hc : a.locked = true ∨ a.available < amt
  · have h : a.withdrawal amt = a := by
      simp only [Account.withdrawal, if_pos hc]
    exact ⟨fun _ => h, Or.inl h⟩
  · have h : a.withdrawal amt = { a with available := a.available - amt } := by
      simp only [Account.withdrawal, if_neg hc]
    have hle : amt ≤ a.available := not_lt.mp (fun hlt => hc (Or.inr hlt))
    refine ⟨fun hlt => absurd (Or.inr hlt) hc, Or.inr ⟨by rw [h], ?_⟩⟩
    rw [h]
    exact sub_nonneg.mpr hle

/-- C8 witness: withdrawing 4 from an account with 10 available applies and
leaves a non-negative balance. -/
theorem c8_withdrawal_never_negative_witness :
    ((⟨1, 10, 0, false, fun _ => none⟩ : Account).available < 4 →
      Account.withdrawal ⟨1, 10, 0, false, fun _ => none⟩ 4 =
        ⟨1, 10, 0, false, fun _ => none⟩) ∧
    (Account.withdrawal ⟨1, 10, 0, false, fun _ => none⟩ 4 =
        ⟨1, 10, 0, false, fun _ => none⟩ ∨
      ((Account.withdrawal ⟨1, 10, 0, false, fun _ => none⟩ 4).available =
          (⟨1, 10, 0, false, fun _ => none⟩ : Account).available - 4 ∧
        0 ≤ (Account.withdrawal ⟨1, 10, 0, false, fun _ => none⟩ 4).available)) :=
  c8_withdrawal_never_negative ⟨1, 10, 0, false, fun _ => none⟩ 4

/-- C10: on an unlocked account, a second deposit reusing a transaction id
already present in the history is still applied: available grows by the new
amount and the history record is replaced by (new amount, disputed = false). -/
theorem c10_duplicate_deposit_overwrites (a : Account) (t : Nat) (amt amt0 : ℚ) (d0 : Bool)
    (hl : a.locked = false)
    (hh : a.history t = some (amt0, d0)) :
    (a.deposit t amt).available = a.available + amt ∧
    (a.deposit t amt).history t = some (amt, false) := by
  simp [Account.deposit, hl, History.insert]

/-- C10 witness: a second deposit at tx 1 with amount 4 over an existing
record (10, false) adds 4 to available and rewrites the record to (4, false). -/
theorem c10_duplicate_deposit_overwrites_witness :
    (((defaultAccount 1).deposit 1 10).deposit 1 4).available =
      ((defaultAccount 1).deposit 1 10).available + 4 ∧
    (((defaultAccount 1).deposit 1 10).deposit 1 4).history 1 = some (4, false) :=
  c10_duplicate_deposit_overwrites ((defaultAccount 1).deposit 1 10) 1 4 10 false
    (by simp [Account.deposit, defaultAccount])
    (by simp [Account.deposit, defaultAccount, History.insert])

/-- C9: a dispute addressed to one account, referencing a transaction id that
lives only in another account's history, mutates neither account and adds no
key to the map. -/
theorem c9_cross_account_isolation (m : Ledger) (cA cB t : Nat) (A B : Account)
    (hA : m.accounts cA = some A) (hB : m.accounts cB = some B) (hne : cA ≠ cB)
    (hInA : (A.history t).isSome = true) (hNotInB : B.history t = none) :
    (applyTransaction m ⟨TxType.dispute, cB, t, none⟩).accounts cA = some A ∧
    (applyTransaction m ⟨TxType.dispute, cB, t, none⟩).accounts cB = some B ∧
    (applyTransaction m ⟨TxType.dispute, cB, t, none⟩).keys = m.keys := by
  have hlook : m.lookup cB = B := by simp [Ledger.lookup, hB]
  have happ : applyToAccount B ⟨TxType.dispute, cB, t, none⟩ = B := by
    simpa [applyToAccount] using dispute_of_not_in_history B t hNotInB
  refine ⟨?_, ?_, ?_⟩
  · simp [applyTransaction, hne, hA]
  · simp [applyTransaction, hlook, happ]
  · simp [applyTransaction, hB]

/-- C9 witness: client 1 deposits at tx 100, client 2 deposits at tx 200; a
dispute by client 2 of tx 100 leaves both accounts and the key list as they
were. -/
theorem c9_cross_account_isolation_witness :
    (applyTransaction
        (applyTransaction (applyTransaction Ledger.empty ⟨TxType.deposit, 1, 100, some 15⟩)
          ⟨TxType.deposit, 2, 200, some 5⟩)
        ⟨TxType.dispute, 2, 100, none⟩).accounts 1 =
      some ((defaultAccount 1).deposit 100 15) ∧
    (applyTransaction
        (applyTransaction (applyTransaction Ledger.empty ⟨TxType.deposit, 1, 100, some 15⟩)
          ⟨TxType.deposit, 2, 200, some 5⟩)
        ⟨TxType.dispute, 2, 100, none⟩).accounts 2 =
      some ((defaultAccount 2).deposit 200 5) ∧
    (applyTransaction
        (applyTransaction (applyTransaction Ledger.empty ⟨TxType.deposit, 1, 100, some 15⟩)
          ⟨TxType.deposit, 2, 200, some 5⟩)
        ⟨TxType.dispute, 2, 100, none⟩).keys =
      (applyTransaction (applyTransaction Ledger.empty ⟨TxType.deposit, 1, 100, some 15⟩)
        ⟨TxType.deposit, 2, 200, some 5⟩).keys :=
  c9_cross_account_isolation
    (applyTransaction (applyTransaction Ledger.empty ⟨TxType.deposit, 1, 100, some 15⟩)
      ⟨TxType.deposit, 2, 200, some 5⟩)
    1 2 100 ((defaultAccount 1).deposit 100 15) ((defaultAccount 2).deposit 200 5)
    (by simp [applyTransaction, applyToAccount, Ledger.lookup, Ledger.empty])
    (by simp [applyTransaction, applyToAccount, Ledger.lookup, Ledger.empty])
    (by decide)
    (by simp [Account.deposit, defaultAccount, History.insert])
    (by simp [Account.deposit, defaultAccount, History.insert])

/-- Whenever some row of the stream is a parse error, folding the rows from
any starting ledger produces an error. -/
theorem runRows_error_of_mem (rows : List (Except String Transaction)) (e : String) :
    Except.error e ∈ rows → ∀ m, ∃ msg, runRows rows m = Except.error msg := by
  induction rows with
  | nil => intro h; cases h
  | cons r rs ih =>
    intro h m
    cases r with
    | error e' => exact ⟨e', rfl⟩
    | ok t =>
      have h' : Except.error e ∈ rs := by
        rcases List.mem_cons.mp h with h1 | h1
        · exact absurd h1 (by simp)
        · exact h1
      exact ih h' (applyTransaction m t)

/-- C6: if any row of the input fails to parse, the run aborts with an error
and no output rows are emitted at all, even for accounts mutated before the
faulting row. -/
theorem c6_parse_error_aborts (rows : List (Except String Transaction)) (e : String)
    (h : Except.error e ∈ rows) :
    (∃ msg, processTransactions (some rows) = Except.error msg) ∧
    ∀ out, processTransactions (some rows) ≠ Except.ok out := by
  obtain ⟨msg, hmsg⟩ := runRows_error_of_mem rows e h Ledger.empty
  refine ⟨⟨msg, by simp [processTransactions, hmsg]⟩, ?_⟩
  intro out hout
  simp [processTransactions, hmsg] at hout

/-- C6 witness: a stream consisting of a good deposit followed by a bad row
produces an error and never an output list. -/
theorem c6_parse_error_aborts_witness :
    (∃ msg, processTransactions
        (some [Except.ok ⟨TxType.deposit, 1, 1, some 10⟩, Except.error "bad row"]) =
      Except.error msg) ∧
    ∀ out, processTransactions
        (some [Except.ok ⟨TxType.deposit, 1, 1, some 10⟩, Except.error "bad row"]) ≠
      Except.ok out :=
  c6_parse_error_aborts [Except.ok ⟨TxType.deposit, 1, 1, some 10⟩, Except.error "bad row"]
    "bad row" (by simp)

/-- The accounts map and the key list stay consistent: a client is in the map
exactly when it is among the recorded keys. -/
def keysConsistent (m : Ledger) : Prop :=
  ∀ c, (m.accounts c).isSome = true ↔ c ∈ m.keys

theorem keysConsistent_empty : keysConsistent Ledger.empty := by
  intro c; simp [Ledger.empty]

theorem keysConsistent_applyTransaction (m : Ledger) (r : Transaction)
    (h : keysConsistent m) : keysConsistent (applyTransaction m r) := by
  intro c
  by_cases hc : c = r.client
  · subst hc
    by_cases hs : (m.accounts r.client).isSome = true
    · simp [applyTransaction, hs, (h r.client).mp hs]
    · simp [applyTransaction, hs]
  · by_cases hs : (m.accounts r.client).isSome = true
    · simp [applyTransaction, hc, hs, h c]
    · simp [applyTransaction, hc, hs, h c]

theorem runRows_keysConsistent (rows : List (Except String Transaction)) :
    ∀ m m', runRows rows m = Except.ok m' → keysConsistent m → keysConsistent m' := by
  induction rows with
  | nil =>
    intro m m' h hm
    simp only [runRows] at h
    cases h
    exact hm
  | cons r rs ih =>
    intro m m' h hm
    cases r with
    | error e => simp [runRows] at h
    | ok t =>
      simp only [runRows] at h
      exact ih _ _ h (keysConsistent_applyTransaction m t hm)

/-- C1 (amended): every run that completes without fatal error emits one
serialized row per known client, rows carrying exactly the four columns
client, available, held, locked; no total column exists in the serialized
schema, so no total is computed at write time. -/
theorem c1_emitted_rows (rows : List (Except String Transaction)) (out : List OutputRow)
    (h : processTransactions (some rows) = Except.ok out) :
    accountColumns = ["client", "available", "held", "locked"] ∧
    ∃ m, runRows rows Ledger.empty = Except.ok m ∧
      out = m.keys.map (fun c => serializeAccount (m.lookup c)) ∧
      ∀ c a, m.accounts c = some a → serializeAccount a ∈ out := by
  refine ⟨rfl, ?_⟩
  cases hr : runRows rows Ledger.empty with
  | error e => simp [processTransactions, hr] at h
  | ok m =>
    have hout : out = emitAll m := by
      simp [processTransactions, hr] at h
      exact h.symm
    refine ⟨m, rfl, by simpa [emitAll] using hout, ?_⟩
    intro c a hc
    have hk : keysConsistent m :=
      runRows_keysConsistent rows Ledger.empty m hr keysConsistent_empty
    have hmem : c ∈ m.keys := (hk c).mp (by simp [hc])
    have hla : m.lookup c = a := by simp [Ledger.lookup, hc]
    rw [hout]
    have hmap := List.mem_map_of_mem (fun c => serializeAccount (m.lookup c)) hmem
    simpa [emitAll, hla] using hmap

/-- C1 witness: a run with a single deposit emits exactly the serialized row
of the one known client. -/
theorem c1_emitted_rows_witness :
    accountColumns = ["client", "available", "held", "locked"] ∧
    ∃ m, runRows [Except.ok ⟨TxType.deposit, 1, 1, some 10⟩] Ledger.empty = Except.ok m ∧
      ({ client := 1, available := 10, held := 0, locked := false } : OutputRow) ::
          ([] : List OutputRow) =
        m.keys.map (fun c => serializeAccount (m.lookup c)) ∧
      ∀ c a, m.accounts c = some a →
        serializeAccount a ∈
          ({ client := 1, available := 10, held := 0, locked := false } : OutputRow) ::
            ([] : List OutputRow) :=
  c1_emitted_rows [Except.ok ⟨TxType.deposit, 1, 1, some 10⟩]
    [{ client := 1, available := 10, held := 0, locked := false }]
    (by simp [processTransactions, runRows, applyTransaction, applyToAccount,
      Account.deposit, Ledger.lookup, Ledger.empty, emitAll, serializeAccount,
      defaultAccount])

/-- C1 counterexample: a run with a single deposit completes successfully and
its emitted row consists of the four fields client, available, held, locked;
the serialized schema has four columns and none of them is total, against the
claimed five-column row with a computed total. -/
theorem c1_counterexample :
    processTransactions (some [Except.ok ⟨TxType.deposit, 1, 1, some 10⟩]) =
      Except.ok [{ client := 1, available := 10, held := 0, locked := false }] ∧
    accountColumns.length = 4 ∧ "total" ∉ accountColumns := by
  refine ⟨?_, rfl, by decide⟩
  simp [processTransactions, runRows, applyTransaction, applyToAccount, Account.deposit,
    Ledger.lookup, Ledger.empty, emitAll, serializeAccount, defaultAccount]

/-- C3: the process never exits non-zero.  At the concrete failing input where
the input file cannot be opened it writes exactly one diagnostic line to
stderr yet the exit status is 0; with no path argument the usage message is
printed, again with exit status 0; and for every argv and input the exit
status is 0, success or not — contradicting the claimed non-zero exits. -/
theorem c3_exit_status_always_zero :
    mainRun ["txflow", "missing.csv"] none =
      (0, ["Error processing transactions: cannot open input file"], none) ∧
    mainRun ["txflow"] none = (0, [usageMessage], none) ∧
    ∀ argv input, (mainRun argv input).1 = 0 := by
  refine ⟨rfl, rfl, ?_⟩
  intro argv input
  unfold mainRun
  cases argv.get? 1 with
  | none => rfl
  | some p =>
    cases processTransactions input with
    | ok out => rfl
    | error e => rfl

end Txflow
